import Mathlib

/-!
Verification of the 2D rigid-body collision subsystem of vigilant-steel
(`src/physics.rs`), shallowly embedded in Lean 4.

Modelling conventions:
* `f32` scalars are embedded as `ℚ`.  The claims under study are about the
  algebraic structure of the computations (which formula is computed, which
  fields are written), not about rounding, so exact rationals are the right
  spec-level domain.  The one place where IEEE special values matter — the
  raycast slab test dividing by a ray-direction component that may be zero —
  uses a dedicated type `F` of rationals extended with `+∞`, `-∞` and `NaN`,
  with IEEE-754 rules for arithmetic and comparisons.
* Rust's `%` on floats is truncated-division remainder (sign of the
  dividend); it is embedded exactly as `rustRem`.
* The `specs` ECS storages are embedded as a `World`: a list of entity
  records, each holding the components `physics.rs` reads and writes.
  `storage.get(e).unwrap()` (a panic when absent) is embedded in the
  `Option` monad: `none` is a panic.
* The crate modules `tree`, `sat`, `blocks` and the crate-root `Role` type
  are referenced by `physics.rs` but their sources are not part of the
  repository snapshot; their data shapes are modelled from the spec
  (§3, §4.1, §4.2, §4.5) and from how `physics.rs` uses them.  The
  narrow-phase test `sat::find` and the trigonometric/square-root
  primitives are kept abstract (passed as parameters), so every theorem
  quantifying over them holds for any implementation.
-/

/-- 2D vector, embedding `[f32; 2]`. -/
structure Vec2 where
  x : ℚ
  y : ℚ
deriving DecidableEq, Repr

/-- `vecmath::vec2_add`. -/
def vec2_add (a b : Vec2) : Vec2 := ⟨a.x + b.x, a.y + b.y⟩

/-- `vecmath::vec2_sub`. -/
def vec2_sub (a b : Vec2) : Vec2 := ⟨a.x - b.x, a.y - b.y⟩

/-- `vecmath::vec2_scale`. -/
def vec2_scale (a : Vec2) (s : ℚ) : Vec2 := ⟨a.x * s, a.y * s⟩

/-- `vecmath::vec2_dot`. -/
def vec2_dot (a b : Vec2) : ℚ := a.x * b.x + a.y * b.y

/-- `vecmath::vec2_square_len`. -/
def vec2_square_len (a : Vec2) : ℚ := a.x * a.x + a.y * a.y

/-- Bounding-box (`AABox` in `physics.rs`), with rational coordinates. -/
structure AABox where
  xmin : ℚ
  xmax : ℚ
  ymin : ℚ
  ymax : ℚ
deriving DecidableEq, Repr

/-- Modelled from the spec (§3, the `tree` module is not in the snapshot):
a spatial tree node is a bounding box plus either a leaf or the indices of
two children. -/
inductive Content where
  | Leaf : Content
  | Internal : ℕ → ℕ → Content
deriving DecidableEq, Repr

/-- Modelled from the spec (§3): one node of the spatial tree. -/
structure TNode where
  bounds : AABox
  content : Content
deriving DecidableEq, Repr

/-- Modelled from the spec (§3): the spatial tree, an array of nodes with the
root at index 0 (`tree::Tree` is a newtype over `Vec<Node>`); named `STree`
because `Tree` is taken by the ambient library. -/
abbrev STree : Type := List TNode

/-- Modelled from the spec (§4.2, the `sat` module is not in the snapshot):
the result of the narrow-phase test — contact point, contact normal,
penetration depth. -/
structure Collision where
  location : Vec2
  direction : Vec2
  depth : ℚ
deriving DecidableEq, Repr

/-- `Position` component. -/
structure Position where
  pos : Vec2
  rot : ℚ
deriving DecidableEq, Repr

/-- `Velocity` component. -/
structure Velocity where
  vel : Vec2
  rot : ℚ
deriving DecidableEq, Repr

/-- Modelled from the spec (§3, the `blocks` module is not in the snapshot):
a rigid composite shape with its block list, derived mass, inertia,
bounding radius and precomputed tree.  Only the fields `physics.rs`
reads are carried; a block is represented by its offset. -/
structure Blocky where
  blocks : List Vec2
  radius : ℚ
  mass : ℚ
  inertia : ℚ
  tree : STree
deriving DecidableEq, Repr

/-- `DetectCollision` component.  The `ignore` entity is by id. -/
structure DetectCollision where
  bounding_box : AABox
  radius : ℚ
  mass : Option ℚ
  ignore : Option ℕ
deriving DecidableEq, Repr

/-- `HitEffect` attached to a `Hit` (other entity by id). -/
inductive HitEffect where
  | Collision : ℚ → ℕ → HitEffect
  | Explosion : ℚ → HitEffect
deriving DecidableEq, Repr

/-- A single collision record (`Hit`). -/
structure Hit where
  rel_location : Vec2
  effect : HitEffect
deriving DecidableEq, Repr

/-- Modelled from the spec (§3, §4.5; the `Role` type lives at the crate
root, outside the snapshot): the process-wide role, carried as its two
predicates `authoritative()` and `networked()`. -/
structure Role where
  authoritative : Bool
  networked : Bool
deriving DecidableEq, Repr

/-- The abstract real-valued primitives `physics.rs` consumes:
`f32::sin_cos` (used by `store_collision`) and `vec2_len`'s square root.
They are parameters of the embedding, so theorems hold for any
implementation. -/
structure RealFns where
  sin : ℚ → ℚ
  cos : ℚ → ℚ
  sqrt : ℚ → ℚ

/-- The abstract narrow-phase test `sat::find` (its module is not in the
snapshot): world positions and local boxes in, optional contact out. -/
abbrev SatFind : Type := Position → AABox → Position → AABox → Option Collision

/-- One entity record: the components of the ECS storages that
`physics.rs` joins over.  `blocky` and `det` are optional (an entity may
lack those components); every modelled entity has `Position`, `Velocity`
and a hits list (the `Hits` ledger, empty meaning the component is clear). -/
structure EntRec where
  id : ℕ
  pos : Position
  vel : Velocity
  blocky : Option Blocky
  det : Option DetectCollision
  hits : List Hit
deriving Repr

/-- The joined storages. -/
abbrev World : Type := List EntRec

/-- Look an entity up by id (`storage.get(e)`). -/
def getEnt (w : World) (i : ℕ) : Option EntRec :=
  w.find? (fun e => e.id = i)

/-- Apply `f` to the entity with id `i` (`storage.get_mut(e)` followed by a
field write); other entities are untouched. -/
def updEnt (w : World) (i : ℕ) (f : EntRec → EntRec) : World :=
  w.map (fun e => if e.id = i then f e else e)

/- ----------------------------------------------------------------- -/
/- SysSimu: integration step (physics.rs lines 202-220)              -/
/- ----------------------------------------------------------------- -/

/-- The `f32` constant `std::f32::consts::PI`, whose exact value is
13176795 / 2^22. -/
def PI : ℚ := 13176795 / 4194304

/-- Truncation toward zero, as used by Rust's float remainder. -/
def ratTrunc (q : ℚ) : ℤ := if 0 ≤ q then ⌊q⌋ else -⌊-q⌋

/-- Rust's `%` on floats: remainder of truncated division,
`x - y * trunc(x / y)`, carrying the sign of the dividend. -/
def rustRem (x y : ℚ) : ℚ := x - y * (ratTrunc (x / y) : ℚ)

/-- The body of `SysSimu::run` for one entity:
`pos.pos = vec2_add(pos.pos, vec2_scale(vel.vel, dt));
 pos.rot += vel.rot * dt; pos.rot %= 2.0 * PI;`. -/
def sysSimu_step (dt : ℚ) (pos : Position) (vel : Velocity) : Position :=
  { pos := vec2_add pos.pos (vec2_scale vel.vel dt),
    rot := rustRem (pos.rot + vel.rot * dt) (2 * PI) }

/-- `SysSimu::run`: integrate every entity that has both components
(in the model, every entity). -/
def sysSimu_run (dt : ℚ) (w : World) : World :=
  w.map (fun e => { e with pos := sysSimu_step dt e.pos e.vel })

/- ----------------------------------------------------------------- -/
/- Hits recording (physics.rs lines 482-502)                         -/
/- ----------------------------------------------------------------- -/

/-- A deferred (`LazyUpdate`) intent the core queues for the networking
collaborator: mark dirty, or mark for deletion. -/
inductive Intent where
  | Dirty : ℕ → Intent
  | Delete : ℕ → Intent
deriving DecidableEq, Repr

/-- The local-frame hit location computed by `store_collision`:
`let (s, c) = pos.rot.sin_cos(); let x = hit[0] - pos.pos[0];
 let y = hit[1] - pos.pos[1]; [x*c + y*s, -x*s + y*c]`. -/
def relLoc (rf : RealFns) (pos : Position) (hitLoc : Vec2) : Vec2 :=
  ⟨(hitLoc.x - pos.pos.x) * rf.cos pos.rot
     + (hitLoc.y - pos.pos.y) * rf.sin pos.rot,
   -(hitLoc.x - pos.pos.x) * rf.sin pos.rot
     + (hitLoc.y - pos.pos.y) * rf.cos pos.rot⟩

/-- `store_collision`: rotate the world hit point into the entity's local
frame and record the `Hit` (appending to the entity's `Hits` ledger, which
is what `Hits::record` amounts to). -/
def store_collision (rf : RealFns) (pos : Position) (hitLoc : Vec2)
    (effect : HitEffect) (ent : ℕ) (w : World) : World :=
  updEnt w ent (fun e =>
    { e with hits := e.hits ++ [⟨relLoc rf pos hitLoc, effect⟩] })

/- ----------------------------------------------------------------- -/
/- Impulse resolver (physics.rs lines 504-614)                       -/
/- ----------------------------------------------------------------- -/

/-- `const ELASTICITY: f32 = 0.6;` -/
def ELASTICITY : ℚ := 6 / 10

/-- `cross`: cross-product of planar vector with orthogonal vector. -/
def cross (a : Vec2) (b : ℚ) : Vec2 := ⟨a.y * b, -(a.x * b)⟩

/-- `cross_dot2`: cross product of planar vectors, dotted with itself. -/
def cross_dot2 (a b : Vec2) : ℚ :=
  let c := a.x * b.y - a.y * b.x
  c * c

/-- `handle_collision`: resolve one composite-vs-composite contact between
entities `ent` and `o_ent`.  Returns the updated world and the deferred
intents it queued; `none` embeds a panic (a `.unwrap()` on a missing
component).  `network` is the `cfg(feature = "network")` toggle. -/
def handle_collision (network : Bool) (rf : RealFns) (ent o_ent : ℕ)
    (w : World) (hit : Collision) : Option (World × List Intent) := do
  let eRec ← getEnt w ent
  let oRec ← getEnt w o_ent
  let blk ← eRec.blocky
  let o_blk ← oRec.blocky
  let pos := eRec.pos
  let o_pos := oRec.pos
  let vel := eRec.vel
  let o_vel := oRec.vel
  let rap := vec2_sub hit.location pos.pos
  let rbp := vec2_sub hit.location o_pos.pos
  let vab1 := vec2_sub (vec2_add vel.vel (cross rap (-vel.rot)))
                       (vec2_add o_vel.vel (cross rbp (-o_vel.rot)))
  let n := hit.direction
  let ma := blk.mass
  let mb := o_blk.mass
  let ia := blk.inertia
  let ib := o_blk.inertia
  let impulse := (-(1 + ELASTICITY) * vec2_dot vab1 n)
      / (1 / ma + 1 / mb + cross_dot2 rap n / ia + cross_dot2 rbp n / ib)
  -- First body: record hit, move out of collision, update velocity.
  let w1 := store_collision rf pos hit.location
      (HitEffect.Collision impulse o_ent) ent w
  let w2 := updEnt w1 ent (fun e =>
    { e with pos := { e.pos with
        pos := vec2_add e.pos.pos
          (vec2_scale hit.direction (hit.depth * (5/10) + 5/100)) } })
  let w3 := updEnt w2 ent (fun e =>
    { e with vel :=
        { vel := vec2_add e.vel.vel
            (vec2_scale hit.direction (impulse / blk.mass)),
          rot := e.vel.rot + impulse
            * (rap.x * hit.direction.y - rap.y * hit.direction.x)
            / blk.inertia } })
  -- Second body: same, with the opposite translation and impulse signs.
  let oRec2 ← getEnt w3 o_ent
  let w4 := store_collision rf oRec2.pos hit.location
      (HitEffect.Collision impulse ent) o_ent w3
  let w5 := updEnt w4 o_ent (fun e =>
    { e with pos := { e.pos with
        pos := vec2_add e.pos.pos
          (vec2_scale hit.direction (-(hit.depth * (5/10) + 5/100))) } })
  let w6 := updEnt w5 o_ent (fun e =>
    { e with vel :=
        { vel := vec2_add e.vel.vel
            (vec2_scale hit.direction (-impulse / o_blk.mass)),
          rot := e.vel.rot + -impulse
            * (rbp.x * hit.direction.y - rbp.y * hit.direction.x)
            / o_blk.inertia } })
  some (w6, if network then [Intent.Dirty ent] else [])

/- ----------------------------------------------------------------- -/
/- Tree descent (physics.rs lines 346-401)                           -/
/- ----------------------------------------------------------------- -/

/-- `find_collision_tree`: simultaneous descent of two trees.  The source
recurses on node indices stored in the array; the embedding adds a fuel
argument to express that recursion (the wrapper passes enough fuel for any
well-formed tree).  Out-of-range indexing (a panic in the source) yields
`none`. -/
def find_collision_tree (sat : SatFind) :
    ℕ → Position → STree → ℕ → Position → STree → ℕ → Option Collision
  | 0, _, _, _, _, _, _ => none
  | fuel + 1, pos1, tree1, idx1, pos2, tree2, idx2 => do
    let n1 ← tree1.get? idx1
    let n2 ← tree2.get? idx2
    match sat pos1 n1.bounds pos2 n2.bounds with
    | none => none
    | some hit =>
      match n1.content with
      | Content.Internal left right =>
        (match find_collision_tree sat fuel pos1 tree1 left pos2 tree2 idx2 with
         | none => find_collision_tree sat fuel pos1 tree1 right pos2 tree2 idx2
         | r => r)
      | Content.Leaf =>
        match n2.content with
        | Content.Internal left right =>
          (match find_collision_tree sat fuel pos1 tree1 idx1 pos2 tree2 left with
           | none => find_collision_tree sat fuel pos1 tree1 idx1 pos2 tree2 right
           | r => r)
        | Content.Leaf => some hit

/-- `find_collision_tree_box`: one box against a tree, same shape. -/
def find_collision_tree_box (sat : SatFind) :
    ℕ → Position → AABox → Position → STree → ℕ → Option Collision
  | 0, _, _, _, _, _ => none
  | fuel + 1, pos1, box1, pos2, tree2, idx2 => do
    let n2 ← tree2.get? idx2
    match sat pos1 box1 pos2 n2.bounds with
    | none => none
    | some hit =>
      match n2.content with
      | Content.Internal left right =>
        (match find_collision_tree_box sat fuel pos1 box1 pos2 tree2 left with
         | none => find_collision_tree_box sat fuel pos1 box1 pos2 tree2 right
         | r => r)
      | Content.Leaf => some hit

/- ----------------------------------------------------------------- -/
/- Collision detection pass (physics.rs lines 237-343)               -/
/- ----------------------------------------------------------------- -/

/-- The `(&*entities, &pos, &blocky)` join: the composite-shaped entities,
in storage (ascending id) order. -/
def blockyJoin (w : World) : List (EntRec × Blocky) :=
  w.filterMap (fun e => e.blocky.map (fun b => (e, b)))

/-- The body of the composite-vs-composite inner loop after the `break`:
`continue` on an empty shape, `continue` on the broad-phase radius
rejection, otherwise descend both trees from their roots. -/
def pairCheck (sat : SatFind) (e1 : EntRec × Blocky) (e2 : EntRec × Blocky) :
    Option Collision :=
  if e1.2.blocks.isEmpty || e2.2.blocks.isEmpty then none
  else
    let rad := e1.2.radius + e2.2.radius
    if vec2_square_len (vec2_sub e1.1.pos.pos e2.1.pos.pos) > rad * rad then
      none
    else
      find_collision_tree sat (e1.2.tree.length + e2.2.tree.length)
        e1.1.pos e1.2.tree 0 e2.1.pos e2.2.tree 0

/-- The inner loop of the composite-vs-composite detection: iterate the
join from the start and `break` at the first `e2 >= e1` (`takeWhile` is
exactly that), collecting at most one contact per examined pair. -/
def innerScan (sat : SatFind) (e1 : EntRec × Blocky)
    (l : List (EntRec × Blocky)) : List (ℕ × ℕ × Collision) :=
  (l.takeWhile (fun e2 => e2.1.id < e1.1.id)).filterMap
    (fun e2 => (pairCheck sat e1 e2).map (fun h => (e1.1.id, e2.1.id, h)))

/-- The pairs the inner loop examines (those reaching past the `break`),
whether or not they are then skipped by the `continue`s: the projection of
`innerScan`'s iteration space. -/
def innerExamined (e1 : EntRec × Blocky) (l : List (EntRec × Blocky)) :
    List (ℕ × ℕ) :=
  (l.takeWhile (fun e2 => e2.1.id < e1.1.id)).map
    (fun e2 => (e1.1.id, e2.1.id))

/-- `block_hits`: the contacts collected by the detection double loop. -/
def block_hits (sat : SatFind) (w : World) : List (ℕ × ℕ × Collision) :=
  (blockyJoin w).flatMap (fun e1 => innerScan sat e1 (blockyJoin w))

/-- All pairs examined by the detection double loop. -/
def examinedPairs (w : World) : List (ℕ × ℕ) :=
  (blockyJoin w).flatMap (fun e1 => innerExamined e1 (blockyJoin w))

/-- The resolution loop: `for (e1, e2, hit) in block_hits { handle_collision(..) }`,
threading the mutated storages and accumulating queued intents. -/
def handle_all (network : Bool) (rf : RealFns) :
    List (ℕ × ℕ × Collision) → World → List Intent →
    Option (World × List Intent)
  | [], w, acc => some (w, acc)
  | (e1, e2, h) :: rest, w, acc => do
    let (w2, ints) ← handle_collision network rf e1 e2 w h
    handle_all network rf rest w2 (acc ++ ints)

/- ----------------------------------------------------------------- -/
/- Composite-vs-simple interaction (physics.rs lines 296-342)        -/
/- ----------------------------------------------------------------- -/

/-- `vecmath::vec2_len`: length via the abstract square root. -/
def vec2_len (rf : RealFns) (a : Vec2) : ℚ := rf.sqrt (vec2_square_len a)

/-- One composite/simple encounter: the body of the inner loop of the
second detection block.  `e2id/pos2/b2` is the composite, `e1id/pos1/c1`
the simple collider; positions are not mutated by this pass, so they are
carried as the join captured them, while velocities and hits are read from
and written to the threaded world. -/
def simple_interact (rf : RealFns) (sat : SatFind)
    (e2id : ℕ) (pos2 : Position) (b2 : Blocky)
    (e1id : ℕ) (pos1 : Position) (c1 : DetectCollision)
    (w : World) : Option World :=
  if c1.ignore = some e2id then some w
  else
    let rad := c1.radius + b2.radius
    if vec2_square_len (vec2_sub pos1.pos pos2.pos) > rad * rad then some w
    else
      match find_collision_tree_box sat b2.tree.length
          pos1 c1.bounding_box pos2 b2.tree 0 with
      | none => some w
      | some hit => do
        let e1R ← getEnt w e1id
        let e2R ← getEnt w e2id
        let vel1 := e1R.vel.vel
        let vel2 := e2R.vel.vel
        let momentum := vec2_sub vel1 vel2
        let momentum := vec2_len rf momentum * b2.mass
        let w := store_collision rf pos1 hit.location
            (HitEffect.Collision momentum e2id) e1id w
        match c1.mass with
        | none => some w
        | some mass1 =>
          let impulse := vec2_scale vel1 mass1
          some (updEnt w e2id (fun e =>
            { e with vel :=
                { vel := vec2_add e.vel.vel
                    (vec2_scale impulse (1 / b2.mass)),
                  rot := e.vel.rot +
                    (let rel := vec2_sub hit.location pos2.pos
                     (rel.x * impulse.y - rel.y * impulse.x) / b2.inertia) } }))

/-- Inner loop of the composite-vs-simple block: all simple colliders
against one composite. -/
def simple_loop (rf : RealFns) (sat : SatFind)
    (e2id : ℕ) (pos2 : Position) (b2 : Blocky) :
    List (ℕ × Position × DetectCollision) → World → Option World
  | [], w => some w
  | (e1id, pos1, c1) :: rest, w => do
    let w2 ← simple_interact rf sat e2id pos2 b2 e1id pos1 c1 w
    simple_loop rf sat e2id pos2 b2 rest w2

/-- Outer loop of the composite-vs-simple block: skip composites whose
shape is empty. -/
def comp_loop (rf : RealFns) (sat : SatFind)
    (simps : List (ℕ × Position × DetectCollision)) :
    List (ℕ × Position × Blocky) → World → Option World
  | [], w => some w
  | (e2id, pos2, b2) :: rest, w =>
    if b2.blocks.isEmpty then comp_loop rf sat simps rest w
    else do
      let w2 ← simple_loop rf sat e2id pos2 b2 simps w
      comp_loop rf sat simps rest w2

/-- The whole composite-vs-simple pass: the `(&*entities, &pos, &blocky)`
and `(&*entities, &pos, &collision)` joins are fixed at entry (no
component is added or removed during the pass, and positions are not
written by it). -/
def cs_pass (rf : RealFns) (sat : SatFind) (w : World) : Option World :=
  let comps := w.filterMap (fun e => e.blocky.map (fun b => (e.id, e.pos, b)))
  let simps := w.filterMap (fun e => e.det.map (fun c => (e.id, e.pos, c)))
  comp_loop rf sat simps comps w

/- ----------------------------------------------------------------- -/
/- SysCollision::run (physics.rs lines 237-343)                      -/
/- ----------------------------------------------------------------- -/

/-- `hits.clear()`: clear every entity's `Hits` ledger. -/
def clear_hits (w : World) : World :=
  w.map (fun e => { e with hits := [] })

/-- Detection and response, after the authority assertion: clear the
ledger, collect the composite-vs-composite contacts, resolve them in
discovery order, then run the composite-vs-simple block. -/
def collision_pass (network : Bool) (rf : RealFns) (sat : SatFind)
    (w : World) : Option (World × List Intent) := do
  let w0 := clear_hits w
  let (w1, ints) ← handle_all network rf (block_hits sat w0) w0 []
  let w2 ← cs_pass rf sat w1
  some (w2, ints)

/-- `SysCollision::run`: `assert!(role.authoritative());` guards the whole
pass.  A failed assertion is a panic before any mutation: it is embedded
as `none` with no world returned. -/
def sysCollision_run (network : Bool) (rf : RealFns) (sat : SatFind)
    (role : Role) (w : World) : Option (World × List Intent) :=
  if role.authoritative then collision_pass network rf sat w else none

/- ----------------------------------------------------------------- -/
/- delete_entity (physics.rs lines 72-93)                            -/
/- ----------------------------------------------------------------- -/

/-- The observable outcome of `delete_entity`. -/
inductive DeleteOutcome where
  | Marked : DeleteOutcome
  | Deleted : DeleteOutcome
  | Panicked : DeleteOutcome
deriving DecidableEq, Repr

/-- `delete_entity`.  `networkFeature` is the `cfg(feature = "network")`
toggle.  `entityNetworked` carries whether the entity being deleted is
itself networked — the property the spec's wording refers to; the source
never reads it (its branch tests `role.networked()`), and the model
faithfully ignores it. -/
def delete_entity (networkFeature : Bool) (role : Role)
    (_entityNetworked : Bool) : DeleteOutcome :=
  if networkFeature then
    if role.authoritative then
      if role.networked then DeleteOutcome.Marked else DeleteOutcome.Deleted
    else DeleteOutcome.Panicked
  else DeleteOutcome.Deleted

/-- The deletion rule as the claim words it (spec §4.5 taken literally):
deferred exactly when the build is networked and the entity itself is
networked, immediate otherwise.  Kept separate so it can be compared with
the source's `delete_entity`. -/
def delete_entity_claimWords (networkFeature : Bool)
    (entityNetworked : Bool) : DeleteOutcome :=
  if networkFeature && entityNetworked then DeleteOutcome.Marked
  else DeleteOutcome.Deleted

/- ----------------------------------------------------------------- -/
/- IEEE float model for the raycast (physics.rs lines 403-480)       -/
/- ----------------------------------------------------------------- -/

/-- An `f32` value for the raycast slab test: a rational, an infinity, or
NaN.  Rounding is not modelled (the claims under study are about the
special values produced by dividing by a zero direction component, not
about precision); there is no negative zero, `0` standing for both. -/
inductive F where
  | fin : ℚ → F
  | pinf : F
  | ninf : F
  | nan : F
deriving DecidableEq, Repr

/-- IEEE addition on `F`. -/
def fadd : F → F → F
  | F.fin a, F.fin b => F.fin (a + b)
  | F.fin _, F.pinf => F.pinf
  | F.fin _, F.ninf => F.ninf
  | F.pinf, F.fin _ => F.pinf
  | F.ninf, F.fin _ => F.ninf
  | F.pinf, F.pinf => F.pinf
  | F.ninf, F.ninf => F.ninf
  | F.pinf, F.ninf => F.nan
  | F.ninf, F.pinf => F.nan
  | F.nan, F.fin _ => F.nan
  | F.nan, F.pinf => F.nan
  | F.nan, F.ninf => F.nan
  | F.nan, F.nan => F.nan
  | F.fin _, F.nan => F.nan
  | F.pinf, F.nan => F.nan
  | F.ninf, F.nan => F.nan

/-- IEEE subtraction on `F`. -/
def fsub : F → F → F
  | F.fin a, F.fin b => F.fin (a - b)
  | F.fin _, F.pinf => F.ninf
  | F.fin _, F.ninf => F.pinf
  | F.pinf, F.fin _ => F.pinf
  | F.ninf, F.fin _ => F.ninf
  | F.pinf, F.ninf => F.pinf
  | F.ninf, F.pinf => F.ninf
  | F.pinf, F.pinf => F.nan
  | F.ninf, F.ninf => F.nan
  | F.nan, F.fin _ => F.nan
  | F.nan, F.pinf => F.nan
  | F.nan, F.ninf => F.nan
  | F.nan, F.nan => F.nan
  | F.fin _, F.nan => F.nan
  | F.pinf, F.nan => F.nan
  | F.ninf, F.nan => F.nan

/-- IEEE multiplication on `F` (`0 × ∞ = NaN`). -/
def fmul : F → F → F
  | F.fin a, F.fin b => F.fin (a * b)
  | F.fin a, F.pinf =>
    if a = 0 then F.nan else if 0 < a then F.pinf else F.ninf
  | F.fin a, F.ninf =>
    if a = 0 then F.nan else if 0 < a then F.ninf else F.pinf
  | F.pinf, F.fin b =>
    if b = 0 then F.nan else if 0 < b then F.pinf else F.ninf
  | F.ninf, F.fin b =>
    if b = 0 then F.nan else if 0 < b then F.ninf else F.pinf
  | F.pinf, F.pinf => F.pinf
  | F.ninf, F.ninf => F.pinf
  | F.pinf, F.ninf => F.ninf
  | F.ninf, F.pinf => F.ninf
  | F.nan, F.fin _ => F.nan
  | F.nan, F.pinf => F.nan
  | F.nan, F.ninf => F.nan
  | F.nan, F.nan => F.nan
  | F.fin _, F.nan => F.nan
  | F.pinf, F.nan => F.nan
  | F.ninf, F.nan => F.nan

/-- IEEE division on `F` (`x/0 = ±∞` by the sign of `x`, `0/0 = NaN`,
`∞/∞ = NaN`, `x/∞ = 0`). -/
def fdiv : F → F → F
  | F.fin a, F.fin b =>
    if b = 0 then
      (if a = 0 then F.nan else if 0 < a then F.pinf else F.ninf)
    else F.fin (a / b)
  | F.fin _, F.pinf => F.fin 0
  | F.fin _, F.ninf => F.fin 0
  | F.pinf, F.fin b => if 0 ≤ b then F.pinf else F.ninf
  | F.ninf, F.fin b => if 0 ≤ b then F.ninf else F.pinf
  | F.pinf, F.pinf => F.nan
  | F.pinf, F.ninf => F.nan
  | F.ninf, F.pinf => F.nan
  | F.ninf, F.ninf => F.nan
  | F.nan, F.fin _ => F.nan
  | F.nan, F.pinf => F.nan
  | F.nan, F.ninf => F.nan
  | F.nan, F.nan => F.nan
  | F.fin _, F.nan => F.nan
  | F.pinf, F.nan => F.nan
  | F.ninf, F.nan => F.nan

/-- IEEE `<` on `F`: any comparison with NaN is false. -/
def flt : F → F → Bool
  | F.fin a, F.fin b => a < b
  | F.fin _, F.pinf => true
  | F.fin _, F.ninf => false
  | F.pinf, F.fin _ => false
  | F.ninf, F.fin _ => true
  | F.pinf, F.pinf => false
  | F.ninf, F.ninf => false
  | F.ninf, F.pinf => true
  | F.pinf, F.ninf => false
  | F.nan, F.fin _ => false
  | F.nan, F.pinf => false
  | F.nan, F.ninf => false
  | F.nan, F.nan => false
  | F.fin _, F.nan => false
  | F.pinf, F.nan => false
  | F.ninf, F.nan => false

/-- IEEE `<=` on `F`: any comparison with NaN is false. -/
def fle : F → F → Bool
  | F.fin a, F.fin b => a ≤ b
  | F.fin _, F.pinf => true
  | F.fin _, F.ninf => false
  | F.pinf, F.fin _ => false
  | F.ninf, F.fin _ => true
  | F.pinf, F.pinf => true
  | F.ninf, F.ninf => true
  | F.ninf, F.pinf => true
  | F.pinf, F.ninf => false
  | F.nan, F.fin _ => false
  | F.nan, F.pinf => false
  | F.nan, F.ninf => false
  | F.nan, F.nan => false
  | F.fin _, F.nan => false
  | F.pinf, F.nan => false
  | F.ninf, F.nan => false

/-- Rust's `f32::min`: ignores a NaN operand. -/
def fmin (a b : F) : F :=
  if a = F.nan then b else if b = F.nan then a else if fle a b then a else b

/-- One slab parameter exactly as `find_collision_tree_ray_` computes it:
`let t = (bound - pos_axis) / dir_axis;` — the division is performed
unconditionally, with no guard on `dir_axis`. -/
def slab_t (bound posA dirA : F) : F := fdiv (fsub bound posA) dirA

/-- The test following each slab division:
`t > 0.0 && lo <= pos_o + dir_o * t && pos_o + dir_o * t <= hi`. -/
def slab_accept (t posO dirO lo hi : F) : Bool :=
  flt (F.fin 0) t && fle lo (fadd posO (fmul dirO t))
    && fle (fadd posO (fmul dirO t)) hi

/-- Fold one slab into the running `tmin`:
`tmin = match tmin { Some(m) => Some(m.min(t)), None => Some(t) }`
when the slab's test passed, `tmin` unchanged otherwise. -/
def slab_upd (tmin : Option F) (t : F) (ok : Bool) : Option F :=
  if ok then
    some (match tmin with
          | some m => fmin m t
          | none => t)
  else tmin

/-- The `tmin` accumulated over the four slabs of one node, in source
order: left, right, bottom, top. -/
def ray_node_tmin (pos dir : F × F) (b : AABox) : Option F :=
  let tL := slab_t (F.fin b.xmin) pos.1 dir.1
  let m1 := slab_upd none tL
      (slab_accept tL pos.2 dir.2 (F.fin b.ymin) (F.fin b.ymax))
  let tR := slab_t (F.fin b.xmax) pos.1 dir.1
  let m2 := slab_upd m1 tR
      (slab_accept tR pos.2 dir.2 (F.fin b.ymin) (F.fin b.ymax))
  let tB := slab_t (F.fin b.ymin) pos.2 dir.2
  let m3 := slab_upd m2 tB
      (slab_accept tB pos.1 dir.1 (F.fin b.xmin) (F.fin b.xmax))
  let tT := slab_t (F.fin b.ymax) pos.2 dir.2
  slab_upd m3 tT
      (slab_accept tT pos.1 dir.1 (F.fin b.xmin) (F.fin b.xmax))

/-- `find_collision_tree_ray_`: recursive raycast descent.  As for the
pairwise descent, the array-index recursion of the source is expressed
with a fuel argument; out-of-range indexing (a source panic) is `none`. -/
def find_collision_tree_ray_aux :
    ℕ → F × F → F × F → STree → ℕ → Option (F × (F × F))
  | 0, _, _, _, _ => none
  | fuel + 1, pos, dir, tree, idx => do
    let n ← tree.get? idx
    match ray_node_tmin pos dir n.bounds with
    | none => none
    | some tmin =>
      match n.content with
      | Content.Internal left right =>
        (match find_collision_tree_ray_aux fuel pos dir tree left,
               find_collision_tree_ray_aux fuel pos dir tree right with
         | none, r => r
         | r, none => r
         | some r1, some r2 => some (if flt r1.1 r2.1 then r1 else r2))
      | Content.Leaf =>
        some (tmin,
          (fadd pos.1 (fmul tmin dir.1), fadd pos.2 (fmul tmin dir.2)))

/-- `find_collision_tree_ray`: the public raycast entry point, descending
from the root. -/
def find_collision_tree_ray (pos dir : F × F) (tree : STree) :
    Option (F × (F × F)) :=
  find_collision_tree_ray_aux tree.length pos dir tree 0

/- ----------------------------------------------------------------- -/
/- Spec-side formulas (§4.4), for comparison with the resolver        -/
/- ----------------------------------------------------------------- -/

/-- The z-component of the planar cross product `r × n`. -/
def crossZ (a b : Vec2) : ℚ := a.x * b.y - a.y * b.x

/-- The spec's contact-point velocity of a body: `v + r × ω` (the angular
rate `ω` taken as a vector along z, so `ω × r = (-ω r_y, ω r_x)`). -/
def pointVel (v : Velocity) (r : Vec2) : Vec2 :=
  ⟨v.vel.x - v.rot * r.y, v.vel.y + v.rot * r.x⟩

/-- The spec's §4.4 impulse formula,
`-(1 + e) (v_rel · n) / (1/m_A + 1/m_B + (r_A × n)²/I_A + (r_B × n)²/I_B)`
with `e = 0.6` and `v_rel` the relative contact-point velocity. -/
def impulse_spec (velA velB : Velocity) (rap rbp n : Vec2)
    (ma mb ia ib : ℚ) : ℚ :=
  (-(1 + 6/10) * vec2_dot (vec2_sub (pointVel velA rap) (pointVel velB rbp)) n)
    / (1 / ma + 1 / mb + (crossZ rap n) ^ 2 / ia + (crossZ rbp n) ^ 2 / ib)

/-- The scalar impulse exactly as `handle_collision` computes it (the
source's `impulse` let-binding), factored out so theorems can name it. -/
def impulse_code (eR oR : EntRec) (blk o_blk : Blocky) (hit : Collision) : ℚ :=
  let rap := vec2_sub hit.location eR.pos.pos
  let rbp := vec2_sub hit.location oR.pos.pos
  let vab1 := vec2_sub (vec2_add eR.vel.vel (cross rap (-eR.vel.rot)))
                       (vec2_add oR.vel.vel (cross rbp (-oR.vel.rot)))
  let n := hit.direction
  (-(1 + ELASTICITY) * vec2_dot vab1 n)
    / (1 / blk.mass + 1 / o_blk.mass + cross_dot2 rap n / blk.inertia
        + cross_dot2 rbp n / o_blk.inertia)

/- ----------------------------------------------------------------- -/
/- Concrete instances used by witnesses                              -/
/- ----------------------------------------------------------------- -/

/-- A trivial instance of the abstract real-valued primitives. -/
def rfEx : RealFns := ⟨fun _ => 0, fun _ => 1, fun _ => 0⟩

/-- A trivial narrow-phase instance that reports no contact. -/
def satEx : SatFind := fun _ _ _ _ => none

/-- A narrow-phase instance that always reports the same contact. -/
def satHitEx : SatFind := fun _ _ _ _ => some ⟨⟨0, 0⟩, ⟨1, 0⟩, 1⟩

/-- A one-leaf tree whose cell bound is the unit square at the origin. -/
def unitTree : STree := [⟨⟨-(1/2), 1/2, -(1/2), 1/2⟩, Content.Leaf⟩]

/-- A sample composite shape over `unitTree`. -/
def blkEx : Blocky := ⟨[⟨0, 0⟩], 1, 2, 3, unitTree⟩

/-- A sample entity record carrying `blkEx`. -/
def entEx (i : ℕ) (px : ℚ) : EntRec :=
  ⟨i, ⟨⟨px, 0⟩, 0⟩, ⟨⟨0, 0⟩, 0⟩, some blkEx, none, []⟩

/-- A sample simple-collider entity record. -/
def detEx (i : ℕ) (px : ℚ) : EntRec :=
  ⟨i, ⟨⟨px, 0⟩, 0⟩, ⟨⟨1, 0⟩, 0⟩, none,
   some ⟨⟨-(1/2), 1/2, -(1/2), 1/2⟩, 1, some 1, none⟩, []⟩

/-- A unit-mass, unit-inertia composite over `unitTree`. -/
def blkOne : Blocky := ⟨[⟨0, 0⟩], 1, 1, 1, unitTree⟩

/-- A two-entity world: composite 1 at the origin, composite 0 at `(1,0)`,
both at rest. -/
def wPair : World :=
  [⟨1, ⟨⟨0, 0⟩, 0⟩, ⟨⟨0, 0⟩, 0⟩, some blkOne, none, []⟩,
   ⟨0, ⟨⟨1, 0⟩, 0⟩, ⟨⟨0, 0⟩, 0⟩, some blkOne, none, []⟩]

/-- A sample contact between the two entities of `wPair`. -/
def hitEx : Collision := ⟨⟨1/2, 0⟩, ⟨1, 0⟩, 0⟩

/-- The world `handle_collision` produces from `wPair` and `hitEx`. -/
def wPairRes : World :=
  [⟨1, ⟨⟨1/20, 0⟩, 0⟩, ⟨⟨0, 0⟩, 0⟩, some blkOne, none,
     [⟨⟨1/2, 0⟩, HitEffect.Collision 0 0⟩]⟩,
   ⟨0, ⟨⟨19/20, 0⟩, 0⟩, ⟨⟨0, 0⟩, 0⟩, some blkOne, none,
     [⟨⟨-(1/2), 0⟩, HitEffect.Collision 0 1⟩]⟩]

/-- The `Velocity` component of entity `i`, as seen through the storages. -/
def velOf (w : World) (i : ℕ) : Option Velocity :=
  (getEnt w i).map (fun e => e.vel)

/-- A simple collider component used by witnesses. -/
def detOne : DetectCollision := ⟨⟨-(1/2), 1/2, -(1/2), 1/2⟩, 1, some 1, none⟩

/-- A world with one simple collider (id 0, moving right) and one
composite (id 1, at rest). -/
def wSimp : World :=
  [⟨0, ⟨⟨0, 0⟩, 0⟩, ⟨⟨1, 0⟩, 0⟩, none, some detOne, []⟩,
   ⟨1, ⟨⟨1, 0⟩, 0⟩, ⟨⟨0, 0⟩, 0⟩, some blkOne, none, []⟩]

/-- `cs_pass` on `wSimp` with the always-hit narrow phase: the simple
collider records the hit and keeps its velocity; the composite absorbs
the impulse. -/
def wSimpRes : World :=
  [⟨0, ⟨⟨0, 0⟩, 0⟩, ⟨⟨1, 0⟩, 0⟩, none, some detOne,
     [⟨⟨0, 0⟩, HitEffect.Collision 0 1⟩]⟩,
   ⟨1, ⟨⟨1, 0⟩, 0⟩, ⟨⟨1, 0⟩, 0⟩, some blkOne, none, []⟩]

/-- A two-composite world in ascending id order, for the detection-pass
witness. -/
def wDet : World :=
  [⟨0, ⟨⟨0, 0⟩, 0⟩, ⟨⟨0, 0⟩, 0⟩, some blkOne, none, []⟩,
   ⟨1, ⟨⟨1, 0⟩, 0⟩, ⟨⟨0, 0⟩, 0⟩, some blkOne, none, []⟩]

/- ----------------------------------------------------------------- -/
/- Helper lemmas: world access                                       -/
/- ----------------------------------------------------------------- -/

theorem getEnt_updEnt_self (w : World) (i : ℕ) (f : EntRec → EntRec)
    (hf : ∀ e, (f e).id = e.id) :
    getEnt (updEnt w i f) i = (getEnt w i).map f := by
  induction w with
  | nil => rfl
  | cons a t ih =>
    by_cases h : a.id = i
    · have h1 : (f a).id = i := by rw [hf a]; exact h
      simp [updEnt, getEnt, List.find?_cons, h, h1]
    · have h1 : decide (a.id = i) = false := by simp [h]
      simp only [updEnt, List.map_cons, getEnt, List.find?_cons, if_neg h, h1]
      exact ih

theorem getEnt_updEnt_other (w : World) (i j : ℕ) (f : EntRec → EntRec)
    (hf : ∀ e, (f e).id = e.id) (hij : i ≠ j) :
    getEnt (updEnt w i f) j = getEnt w j := by
  induction w with
  | nil => rfl
  | cons a t ih =>
    by_cases h : a.id = i
    · have hj : decide (a.id = j) = false := by
        rw [h]
        simp [hij]
      have h2 : decide ((f a).id = j) = false := by
        rw [hf a, h]
        simp [hij]
      simp only [updEnt, List.map_cons, getEnt, List.find?_cons, if_pos h, hj, h2]
      exact ih
    · by_cases h3 : a.id = j
      · simp [updEnt, getEnt, List.find?_cons, h, h3, Ne.symm hij]
      · have hj : decide (a.id = j) = false := by simp [h3]
        simp only [updEnt, List.map_cons, getEnt, List.find?_cons, if_neg h, hj]
        exact ih

/- ----------------------------------------------------------------- -/
/- Helper lemmas: the truncated-division remainder                   -/
/- ----------------------------------------------------------------- -/

theorem ratTrunc_near (q : ℚ) : -1 < q - (ratTrunc q : ℚ) ∧ q - (ratTrunc q : ℚ) < 1 := by
  unfold ratTrunc
  rcases le_or_lt 0 q with h | h
  · rw [if_pos h]
    constructor
    · have := Int.floor_le q
      linarith
    · have := Int.lt_floor_add_one q
      linarith
  · rw [if_neg (not_le.mpr h)]
    push_cast
    constructor
    · have := Int.lt_floor_add_one (-q)
      linarith
    · have := Int.floor_le (-q)
      linarith

theorem rustRem_bound (x y : ℚ) (hy : 0 < y) :
    -y < rustRem x y ∧ rustRem x y < y := by
  unfold rustRem
  have hne : y ≠ 0 := ne_of_gt hy
  have hid : y * (x / y) = x := mul_div_cancel₀ x hne
  obtain ⟨h1, h2⟩ := ratTrunc_near (x / y)
  constructor
  · have := mul_lt_mul_of_pos_left h1 hy
    rw [mul_sub] at this
    nlinarith
  · have := mul_lt_mul_of_pos_left h2 hy
    rw [mul_sub] at this
    nlinarith

/- ----------------------------------------------------------------- -/
/- C2                                                                -/
/- ----------------------------------------------------------------- -/

/-- C2: `SysCollision::run` opens with `assert!(role.authoritative())`.
When the role is not authoritative the step aborts (a panic, embedded as
`none`) before the `Hits` ledger is cleared or any position or velocity is
written — the `none` result carries no mutated world at all; when the role
is authoritative the assertion passes and the detection/response pipeline
(`collision_pass`) runs. -/
theorem C2_run_asserts_authoritative (network : Bool) (rf : RealFns)
    (sat : SatFind) (role : Role) (w : World) :
    (role.authoritative = false →
      sysCollision_run network rf sat role w = none) ∧
    (role.authoritative = true →
      sysCollision_run network rf sat role w = collision_pass network rf sat w) := by
  constructor <;> intro h <;> simp [sysCollision_run, h]

/-- Witness for C2 at a concrete replica role and a concrete
authoritative role. -/
theorem C2_run_asserts_authoritative_witness :
    sysCollision_run true rfEx satEx ⟨false, true⟩ [entEx 0 0] = none ∧
    sysCollision_run true rfEx satEx ⟨true, true⟩ [entEx 0 0] =
      collision_pass true rfEx satEx [entEx 0 0] :=
  ⟨(C2_run_asserts_authoritative true rfEx satEx ⟨false, true⟩ [entEx 0 0]).1 rfl,
   (C2_run_asserts_authoritative true rfEx satEx ⟨true, true⟩ [entEx 0 0]).2 rfl⟩

/- ----------------------------------------------------------------- -/
/- C7                                                                -/
/- ----------------------------------------------------------------- -/

/-- C7 counterexample: in a networked build, with an authoritative and
networked role, deleting an entity that is *not* itself networked is still
deferred to a delete marker — but the claim ("deferred exactly when the
entity being deleted is itself networked") predicts an immediate delete
for that input. -/
theorem C7_counterexample :
    delete_entity true ⟨true, true⟩ false = DeleteOutcome.Marked ∧
    delete_entity_claimWords true false = DeleteOutcome.Deleted :=
  ⟨rfl, rfl⟩

/-- C7 amended: in a networked build `delete_entity` first asserts the
role is authoritative (panicking otherwise); it then defers deletion to a
lazily inserted delete marker exactly when the *role* is networked, and
deletes immediately otherwise; the networked-ness of the entity itself is
never consulted.  In a non-networked build it always deletes immediately. -/
theorem C7_delete_entity_role_condition (nf : Bool) (role : Role)
    (en : Bool) :
    (delete_entity nf role en = DeleteOutcome.Marked ↔
      nf = true ∧ role.authoritative = true ∧ role.networked = true) ∧
    delete_entity nf role en = delete_entity nf role (!en) ∧
    (nf = false → delete_entity nf role en = DeleteOutcome.Deleted) ∧
    (nf = true → role.authoritative = false →
      delete_entity nf role en = DeleteOutcome.Panicked) ∧
    (nf = true → role.authoritative = true → role.networked = false →
      delete_entity nf role en = DeleteOutcome.Deleted) := by
  unfold delete_entity
  rcases role with ⟨a, n⟩
  cases nf <;> cases a <;> cases n <;> simp

/-- Witness for C7 at concrete flags, one per outcome: deferred marker
(networked role), immediate delete in a non-networked build, panic on a
replica, and immediate delete for an authoritative non-networked role in
a networked build. -/
theorem C7_delete_entity_role_condition_witness :
    (delete_entity true ⟨true, true⟩ false = DeleteOutcome.Marked ↔
      True ∧ True ∧ True) ∧
    delete_entity false ⟨true, false⟩ true = DeleteOutcome.Deleted ∧
    delete_entity true ⟨false, true⟩ true = DeleteOutcome.Panicked ∧
    delete_entity true ⟨true, false⟩ true = DeleteOutcome.Deleted := by
  refine ⟨?_, ?_, ?_, ?_⟩
  · have h := (C7_delete_entity_role_condition true ⟨true, true⟩ false).1
    simpa using h
  · exact (C7_delete_entity_role_condition false ⟨true, false⟩ true).2.2.1 rfl
  · exact (C7_delete_entity_role_condition true ⟨false, true⟩ true).2.2.2.1 rfl rfl
  · exact (C7_delete_entity_role_condition true ⟨true, false⟩ true).2.2.2.2 rfl rfl rfl

/- ----------------------------------------------------------------- -/
/- C5                                                                -/
/- ----------------------------------------------------------------- -/

/-- C5 counterexample: with `dt = 1`, initial heading `0` and angular
velocity `-1`, the integration step leaves `rot = -1`, which is not in
`[0, 2π)`: Rust's `%` keeps the sign of the dividend, so negative headings
are *not* wrapped into `[0, 2π)`. -/
theorem C5_counterexample :
    ¬ (0 ≤ (sysSimu_step 1 ⟨⟨0, 0⟩, 0⟩ ⟨⟨0, 0⟩, -1⟩).rot ∧
       (sysSimu_step 1 ⟨⟨0, 0⟩, 0⟩ ⟨⟨0, 0⟩, -1⟩).rot < 2 * PI) := by
  have : (sysSimu_step 1 ⟨⟨0, 0⟩, 0⟩ ⟨⟨0, 0⟩, -1⟩).rot = -1 := by
    norm_num [sysSimu_step, rustRem, ratTrunc, PI]
  rw [this]
  norm_num

/-- C5 amended: after the `SysSimu` integration step every entity's
heading lies in the open interval `(-2π, 2π)`: the step adds
`vel.rot * dt` and reduces with Rust's `%`, whose result has magnitude
less than the modulus `2π` but keeps the dividend's sign. -/
theorem C5_rot_in_open_interval (dt : ℚ) (w : World) (e : EntRec)
    (he : e ∈ sysSimu_run dt w) :
    -(2 * PI) < e.pos.rot ∧ e.pos.rot < 2 * PI := by
  unfold sysSimu_run at he
  rw [List.mem_map] at he
  obtain ⟨e0, _, rfl⟩ := he
  have hpi : (0 : ℚ) < 2 * PI := by norm_num [PI]
  have := rustRem_bound (e0.pos.rot + e0.vel.rot * dt) (2 * PI) hpi
  simpa [sysSimu_step] using this

/-- Witness for C5 on a concrete one-entity world. -/
theorem C5_rot_in_open_interval_witness :
    -(2 * PI) < (EntRec.mk 0 ⟨⟨0, 1⟩, -1⟩ ⟨⟨0, 1⟩, -1⟩ none none []).pos.rot ∧
    (EntRec.mk 0 ⟨⟨0, 1⟩, -1⟩ ⟨⟨0, 1⟩, -1⟩ none none []).pos.rot < 2 * PI := by
  have h := C5_rot_in_open_interval 1 [⟨0, ⟨⟨0, 0⟩, 0⟩, ⟨⟨0, 1⟩, -1⟩, none, none, []⟩]
      (EntRec.mk 0 ⟨⟨0, 1⟩, -1⟩ ⟨⟨0, 1⟩, -1⟩ none none [])
  apply h
  norm_num [sysSimu_run, sysSimu_step, rustRem, ratTrunc, PI, vec2_add, vec2_scale]

/- ----------------------------------------------------------------- -/
/- C10                                                               -/
/- ----------------------------------------------------------------- -/

/-- C10: in a networked build, a successful `handle_collision` queues
exactly one deferred intent: `net::Dirty` on the *first* entity of the
pair.  The second entity — whose position, velocity and `Hits` ledger the
same call also mutates — is never marked. -/
theorem C10_dirty_marks_first_only (rf : RealFns) (ent o_ent : ℕ)
    (w w2 : World) (hit : Collision) (ints : List Intent)
    (h : handle_collision true rf ent o_ent w hit = some (w2, ints)) :
    ints = [Intent.Dirty ent] ∧
    (o_ent ≠ ent → Intent.Dirty o_ent ∉ ints) := by
  unfold handle_collision at h
  cases h1 : getEnt w ent with
  | none => rw [h1] at h; simp at h
  | some eR =>
    rw [h1] at h
    simp only [Option.bind_eq_bind, Option.some_bind] at h
    cases h2 : getEnt w o_ent with
    | none => rw [h2] at h; simp at h
    | some oR =>
      rw [h2] at h
      simp only [Option.bind_eq_bind, Option.some_bind] at h
      cases h3 : eR.blocky with
      | none => rw [h3] at h; simp at h
      | some blk =>
        rw [h3] at h
        simp only [Option.bind_eq_bind, Option.some_bind] at h
        cases h4 : oR.blocky with
        | none => rw [h4] at h; simp at h
        | some o_blk =>
          rw [h4] at h
          simp only [Option.bind_eq_bind, Option.some_bind] at h
          cases h5 : getEnt (updEnt (updEnt (store_collision rf eR.pos hit.location
              (HitEffect.Collision _ o_ent) ent w) ent _) ent _) o_ent with
          | none =>
            rw [h5] at h
            simp at h
          | some oRec2 =>
            rw [h5] at h
            simp only [Option.some_bind, Option.some.injEq, Prod.mk.injEq] at h
            obtain ⟨-, hints⟩ := h
            have hints2 : ints = [Intent.Dirty ent] := by
              rw [← hints]
              simp
            refine ⟨hints2, ?_⟩
            intro hne hmem
            rw [hints2] at hmem
            simp at hmem
            exact hne hmem

/- ----------------------------------------------------------------- -/
/- Helper: full characterization of handle_collision                 -/
/- ----------------------------------------------------------------- -/

theorem handle_collision_getEnt (network : Bool) (rf : RealFns)
    (ent o_ent : ℕ) (w w' : World) (hit : Collision) (ints : List Intent)
    (eR oR : EntRec) (blk o_blk : Blocky)
    (hne : ent ≠ o_ent)
    (he : getEnt w ent = some eR) (ho : getEnt w o_ent = some oR)
    (hb : eR.blocky = some blk) (hob : oR.blocky = some o_blk)
    (h : handle_collision network rf ent o_ent w hit = some (w', ints)) :
    getEnt w' ent = some { eR with
      pos := { eR.pos with pos := (vec2_add eR.pos.pos
          (vec2_scale hit.direction (hit.depth * (5/10) + 5/100))) },
      vel := { vel := (vec2_add eR.vel.vel (vec2_scale hit.direction
                 (impulse_code eR oR blk o_blk hit / blk.mass))),
               rot := (eR.vel.rot + impulse_code eR oR blk o_blk hit
                 * ((vec2_sub hit.location eR.pos.pos).x * hit.direction.y
                    - (vec2_sub hit.location eR.pos.pos).y * hit.direction.x)
                 / blk.inertia) },
      hits := (eR.hits ++ [⟨relLoc rf eR.pos hit.location,
        HitEffect.Collision (impulse_code eR oR blk o_blk hit) o_ent⟩]) }
    ∧ getEnt w' o_ent = some { oR with
      pos := { oR.pos with pos := (vec2_add oR.pos.pos
          (vec2_scale hit.direction (-(hit.depth * (5/10) + 5/100)))) },
      vel := { vel := (vec2_add oR.vel.vel (vec2_scale hit.direction
                 (-impulse_code eR oR blk o_blk hit / o_blk.mass))),
               rot := (oR.vel.rot + -impulse_code eR oR blk o_blk hit
                 * ((vec2_sub hit.location oR.pos.pos).x * hit.direction.y
                    - (vec2_sub hit.location oR.pos.pos).y * hit.direction.x)
                 / o_blk.inertia) },
      hits := (oR.hits ++ [⟨relLoc rf oR.pos hit.location,
        HitEffect.Collision (impulse_code eR oR blk o_blk hit) ent⟩]) }
    ∧ ints = (if network then [Intent.Dirty ent] else []) := by
  have hne2 : o_ent ≠ ent := Ne.symm hne
  unfold handle_collision at h
  rw [he] at h
  simp only [Option.bind_eq_bind, Option.some_bind] at h
  rw [ho] at h
  simp only [Option.some_bind] at h
  rw [hb] at h
  simp only [Option.some_bind] at h
  rw [hob] at h
  simp only [Option.some_bind, store_collision] at h
  simp (disch := first | (intro e; rfl) | exact hne | exact hne2) only
    [getEnt_updEnt_other, getEnt_updEnt_self, ho, Option.map_some,
     Option.some_bind] at h
  simp only [Option.some.injEq, Prod.mk.injEq] at h
  obtain ⟨hw, hints⟩ := h
  refine ⟨?_, ?_, hints.symm⟩
  · rw [← hw]
    simp (disch := first | (intro e; rfl) | exact hne | exact hne2) only
      [store_collision, getEnt_updEnt_other, getEnt_updEnt_self, he,
       Option.map_some]
    simp [impulse_code, relLoc]
  · rw [← hw]
    simp (disch := first | (intro e; rfl) | exact hne | exact hne2) only
      [store_collision, getEnt_updEnt_other, getEnt_updEnt_self, ho,
       Option.map_some]
    simp [impulse_code, relLoc]

theorem impulse_code_eq_spec (eR oR : EntRec) (blk o_blk : Blocky)
    (hit : Collision) :
    impulse_code eR oR blk o_blk hit =
      impulse_spec eR.vel oR.vel (vec2_sub hit.location eR.pos.pos)
        (vec2_sub hit.location oR.pos.pos) hit.direction
        blk.mass o_blk.mass blk.inertia o_blk.inertia := by
  unfold impulse_code impulse_spec ELASTICITY pointVel crossZ cross
    cross_dot2 vec2_dot vec2_sub vec2_add
  ring_nf

/- ----------------------------------------------------------------- -/
/- C1                                                                -/
/- ----------------------------------------------------------------- -/

/-- C1: for every composite-vs-composite contact, the scalar impulse the
resolver applies is `-(1+e) (v_rel · n) / (1/m_A + 1/m_B + (r_A×n)²/I_A +
(r_B×n)²/I_B)` with `e = 0.6` and `v_rel` the relative contact-point
velocity including each body's rotational term (`v + r×ω`); body A's
linear velocity gains `impulse/m_A · n`, body B's gains the negated
`impulse/m_B · n`, and the two angular velocities receive torques of
opposite sign (`±impulse · (r×n)/I`). -/
theorem C1_impulse_formula (network : Bool) (rf : RealFns) (ent o_ent : ℕ)
    (w w' : World) (hit : Collision) (ints : List Intent)
    (eR oR : EntRec) (blk o_blk : Blocky)
    (hne : ent ≠ o_ent)
    (he : getEnt w ent = some eR) (ho : getEnt w o_ent = some oR)
    (hb : eR.blocky = some blk) (hob : oR.blocky = some o_blk)
    (h : handle_collision network rf ent o_ent w hit = some (w', ints)) :
    (getEnt w' ent).map (fun e => e.vel) =
      some { vel := (vec2_add eR.vel.vel (vec2_scale hit.direction
               (impulse_spec eR.vel oR.vel (vec2_sub hit.location eR.pos.pos)
                  (vec2_sub hit.location oR.pos.pos) hit.direction
                  blk.mass o_blk.mass blk.inertia o_blk.inertia / blk.mass))),
             rot := (eR.vel.rot +
               impulse_spec eR.vel oR.vel (vec2_sub hit.location eR.pos.pos)
                  (vec2_sub hit.location oR.pos.pos) hit.direction
                  blk.mass o_blk.mass blk.inertia o_blk.inertia
               * crossZ (vec2_sub hit.location eR.pos.pos) hit.direction
               / blk.inertia) }
    ∧ (getEnt w' o_ent).map (fun e => e.vel) =
      some { vel := (vec2_add oR.vel.vel (vec2_scale hit.direction
               (-impulse_spec eR.vel oR.vel (vec2_sub hit.location eR.pos.pos)
                  (vec2_sub hit.location oR.pos.pos) hit.direction
                  blk.mass o_blk.mass blk.inertia o_blk.inertia / o_blk.mass))),
             rot := (oR.vel.rot +
               -impulse_spec eR.vel oR.vel (vec2_sub hit.location eR.pos.pos)
                  (vec2_sub hit.location oR.pos.pos) hit.direction
                  blk.mass o_blk.mass blk.inertia o_blk.inertia
               * crossZ (vec2_sub hit.location oR.pos.pos) hit.direction
               / o_blk.inertia) } := by
  obtain ⟨hA, hB, -⟩ :=
    handle_collision_getEnt network rf ent o_ent w w' hit ints eR oR
      blk o_blk hne he ho hb hob h
  rw [hA, hB]
  rw [impulse_code_eq_spec]
  constructor <;> simp [crossZ]

/-- Witness for C1: the concrete contact `hitEx` on `wPair`. -/
theorem C1_impulse_formula_witness :
    (getEnt wPairRes 1).map (fun e => e.vel) = some ⟨⟨0, 0⟩, 0⟩ ∧
    (getEnt wPairRes 0).map (fun e => e.vel) = some ⟨⟨0, 0⟩, 0⟩ := by
  have h : handle_collision true rfEx 1 0 wPair hitEx =
      some (wPairRes, [Intent.Dirty 1]) := by
    norm_num [handle_collision, wPair, hitEx, blkOne, rfEx, getEnt, updEnt,
      store_collision, relLoc, ELASTICITY, cross, cross_dot2, vec2_add,
      vec2_sub, vec2_scale, vec2_dot, List.find?, unitTree, wPairRes]
  have hc := C1_impulse_formula true rfEx 1 0 wPair wPairRes hitEx
    [Intent.Dirty 1] ⟨1, ⟨⟨0, 0⟩, 0⟩, ⟨⟨0, 0⟩, 0⟩, some blkOne, none, []⟩
    ⟨0, ⟨⟨1, 0⟩, 0⟩, ⟨⟨0, 0⟩, 0⟩, some blkOne, none, []⟩ blkOne blkOne
    (by decide) (by norm_num [getEnt, wPair, List.find?])
    (by norm_num [getEnt, wPair, List.find?]) rfl rfl h
  rw [hc.1, hc.2]
  norm_num [impulse_spec, pointVel, crossZ, vec2_dot, vec2_sub, vec2_add,
    vec2_scale, hitEx, blkOne, Velocity.mk.injEq, Vec2.mk.injEq]

/- ----------------------------------------------------------------- -/
/- C4                                                                -/
/- ----------------------------------------------------------------- -/

/-- C4: resolving a composite-vs-composite contact with depth `d` and
normal `n` translates body A's position by `+(d/2 + 0.05) n` and body B's
by `-(d/2 + 0.05) n`. -/
theorem C4_position_separation (network : Bool) (rf : RealFns)
    (ent o_ent : ℕ) (w w' : World) (hit : Collision) (ints : List Intent)
    (eR oR : EntRec) (blk o_blk : Blocky)
    (hne : ent ≠ o_ent)
    (he : getEnt w ent = some eR) (ho : getEnt w o_ent = some oR)
    (hb : eR.blocky = some blk) (hob : oR.blocky = some o_blk)
    (h : handle_collision network rf ent o_ent w hit = some (w', ints)) :
    (getEnt w' ent).map (fun e => e.pos.pos) =
      some (vec2_add eR.pos.pos
        (vec2_scale hit.direction (hit.depth / 2 + 5/100)))
    ∧ (getEnt w' o_ent).map (fun e => e.pos.pos) =
      some (vec2_add oR.pos.pos
        (vec2_scale hit.direction (-(hit.depth / 2 + 5/100)))) := by
  obtain ⟨hA, hB, -⟩ :=
    handle_collision_getEnt network rf ent o_ent w w' hit ints eR oR
      blk o_blk hne he ho hb hob h
  rw [hA, hB]
  have h1 : hit.depth * (5/10) + 5/100 = hit.depth / 2 + 5/100 := by ring
  rw [h1]
  exact ⟨rfl, rfl⟩

/-- Witness for C4: the concrete contact `hitEx` on `wPair`. -/
theorem C4_position_separation_witness :
    (getEnt wPairRes 1).map (fun e => e.pos.pos) = some ⟨1/20, 0⟩ ∧
    (getEnt wPairRes 0).map (fun e => e.pos.pos) = some ⟨19/20, 0⟩ := by
  have h : handle_collision true rfEx 1 0 wPair hitEx =
      some (wPairRes, [Intent.Dirty 1]) := by
    norm_num [handle_collision, wPair, hitEx, blkOne, rfEx, getEnt, updEnt,
      store_collision, relLoc, ELASTICITY, cross, cross_dot2, vec2_add,
      vec2_sub, vec2_scale, vec2_dot, List.find?, unitTree, wPairRes]
  have hc := C4_position_separation true rfEx 1 0 wPair wPairRes hitEx
    [Intent.Dirty 1] ⟨1, ⟨⟨0, 0⟩, 0⟩, ⟨⟨0, 0⟩, 0⟩, some blkOne, none, []⟩
    ⟨0, ⟨⟨1, 0⟩, 0⟩, ⟨⟨0, 0⟩, 0⟩, some blkOne, none, []⟩ blkOne blkOne
    (by decide) (by norm_num [getEnt, wPair, List.find?])
    (by norm_num [getEnt, wPair, List.find?]) rfl rfl h
  rw [hc.1, hc.2]
  norm_num [hitEx, vec2_add, vec2_scale, Vec2.mk.injEq]

/-- Witness for C10: the concrete contact `hitEx` on `wPair`. -/
theorem C10_dirty_marks_first_only_witness :
    [Intent.Dirty 1] = [Intent.Dirty 1] ∧ Intent.Dirty 0 ∉ [Intent.Dirty 1] := by
  have h : handle_collision true rfEx 1 0 wPair hitEx =
      some (wPairRes, [Intent.Dirty 1]) := by
    norm_num [handle_collision, wPair, hitEx, blkOne, rfEx, getEnt, updEnt,
      store_collision, relLoc, ELASTICITY, cross, cross_dot2, vec2_add,
      vec2_sub, vec2_scale, vec2_dot, List.find?, unitTree, wPairRes]
  have hc := C10_dirty_marks_first_only rfEx 1 0 wPair wPairRes hitEx
    [Intent.Dirty 1] h
  exact ⟨hc.1, hc.2 (by decide)⟩

theorem fin_ne_nan (q : ℚ) : F.fin q ≠ F.nan := fun h => F.noConfusion h

/- ----------------------------------------------------------------- -/
/- C9                                                                -/
/- ----------------------------------------------------------------- -/

/-- C9: raycasting a single-cell tree with leaf bounds `[-0.5,0.5]²` from
origin `(-5, 0)` in direction `(1, 0)` hits at distance `4.5`, point
`(-0.5, 0)`. -/
theorem C9_raycast_single_cell :
    find_collision_tree_ray (F.fin (-5), F.fin 0) (F.fin 1, F.fin 0) unitTree
      = some (F.fin (9/2), (F.fin (-(1/2)), F.fin 0)) := by
  norm_num [find_collision_tree_ray, find_collision_tree_ray_aux,
    ray_node_tmin, slab_t, slab_accept, slab_upd, fdiv, fsub, fadd, fmul,
    flt, fle, fmin, unitTree, fin_ne_nan]

/- ----------------------------------------------------------------- -/
/- C6                                                                -/
/- ----------------------------------------------------------------- -/

/-- C6 counterexample: the slab parameter `t = (bound - pos) / dir` is
computed by an *unguarded* division: with a zero direction component it is
evaluated anyway and yields `+∞` (here: bound `1/2`, position `0`,
direction component `0`).  An explicit divide-by-zero guard, as the claim
describes, would skip the slab without ever producing a non-finite
quotient. -/
theorem C6_counterexample :
    slab_t (F.fin (1/2)) (F.fin 0) (F.fin 0) = F.pinf := by
  norm_num [slab_t, fsub, fdiv]

theorem slab_accept_pos (t : F) (po d lo hi : ℚ)
    (h : slab_accept t (F.fin po) (F.fin d) (F.fin lo) (F.fin hi) = true) :
    ∃ q : ℚ, 0 < q ∧ t = F.fin q := by
  cases t with
  | fin q =>
    refine ⟨q, ?_, rfl⟩
    simp only [slab_accept, flt, Bool.and_eq_true, decide_eq_true_eq] at h
    exact h.1.1
  | pinf =>
    exfalso
    simp only [slab_accept, flt, fmul, Bool.and_eq_true] at h
    rcases h with ⟨⟨-, h2⟩, h3⟩
    by_cases hd : d = 0
    · rw [if_pos hd] at h2
      simp [fadd, fle] at h2
    · rw [if_neg hd] at h2 h3
      by_cases hd2 : 0 < d
      · rw [if_pos hd2] at h2 h3
        simp [fadd, fle] at h3
      · rw [if_neg hd2] at h2
        simp [fadd, fle] at h2
  | ninf => simp [slab_accept, flt] at h
  | nan => simp [slab_accept, flt] at h

theorem slab_upd_pos (m : Option F) (t : F) (ok : Bool)
    (hm : ∀ t0, m = some t0 → ∃ q : ℚ, 0 < q ∧ t0 = F.fin q)
    (ht : ok = true → ∃ q : ℚ, 0 < q ∧ t = F.fin q) :
    ∀ t0, slab_upd m t ok = some t0 → ∃ q : ℚ, 0 < q ∧ t0 = F.fin q := by
  intro t0 h
  unfold slab_upd at h
  cases ok with
  | false => exact hm t0 (by simpa using h)
  | true =>
    obtain ⟨q, hq, rfl⟩ := ht rfl
    cases m with
    | none =>
      simp only [if_true] at h
      exact ⟨q, hq, (Option.some.injEq _ _ ▸ h).symm ▸ rfl⟩
    | some m0 =>
      obtain ⟨qm, hqm, rfl⟩ := hm m0 rfl
      simp only [if_true, Option.some.injEq] at h
      rw [← h]
      unfold fmin
      rw [if_neg (fin_ne_nan qm), if_neg (fin_ne_nan q)]
      by_cases hle : fle (F.fin qm) (F.fin q) = true
      · rw [if_pos hle]; exact ⟨qm, hqm, rfl⟩
      · rw [if_neg hle]; exact ⟨q, hq, rfl⟩

theorem ray_node_tmin_pos (px py dx dy : ℚ) (b : AABox) :
    ∀ t0, ray_node_tmin (F.fin px, F.fin py) (F.fin dx, F.fin dy) b = some t0 →
      ∃ q : ℚ, 0 < q ∧ t0 = F.fin q := by
  unfold ray_node_tmin
  refine slab_upd_pos _ _ _ (slab_upd_pos _ _ _ (slab_upd_pos _ _ _
    (slab_upd_pos _ _ _ ?_ ?_) ?_) ?_) ?_
  · intro t0 h
    exact absurd h (by simp)
  · exact slab_accept_pos _ py dy _ _
  · exact slab_accept_pos _ py dy _ _
  · exact slab_accept_pos _ px dx _ _
  · exact slab_accept_pos _ px dx _ _

/-- C6 amended: the slab divisions in `find_collision_tree_ray_` are not
explicitly guarded — dividing by a zero direction component really is
evaluated and yields `±∞`/`NaN` (see the counterexample) — but the IEEE
comparisons that follow each division filter every non-finite quotient
out: a slab whose direction component is zero never passes its acceptance
test (it is treated as "no intersection on that slab"), and any returned
hit consists of a finite positive distance and a finite hit point, for
every ray with finite origin and direction and every tree. -/
theorem C6_ray_zero_component_filtered :
    (∀ b p po d lo hi : ℚ,
      slab_accept (slab_t (F.fin b) (F.fin p) (F.fin 0)) (F.fin po)
        (F.fin d) (F.fin lo) (F.fin hi) = false) ∧
    (∀ (fuel : ℕ) (px py dx dy : ℚ) (tree : STree) (idx : ℕ) (t hx hy : F),
      find_collision_tree_ray_aux fuel (F.fin px, F.fin py)
          (F.fin dx, F.fin dy) tree idx = some (t, (hx, hy)) →
      (∃ q : ℚ, 0 < q ∧ t = F.fin q) ∧
      (∃ a : ℚ, hx = F.fin a) ∧ (∃ b : ℚ, hy = F.fin b)) := by
  constructor
  · intro b p po d lo hi
    by_cases hacc : slab_accept (slab_t (F.fin b) (F.fin p) (F.fin 0))
        (F.fin po) (F.fin d) (F.fin lo) (F.fin hi) = true
    · obtain ⟨q, -, hq⟩ := slab_accept_pos _ po d lo hi hacc
      rw [slab_t, fsub, fdiv] at hq
      by_cases h1 : b - p = 0
      · rw [if_pos h1] at hq
        simp at hq
      · rw [if_neg h1] at hq
        by_cases h2 : 0 < b - p
        · rw [if_pos h2] at hq
          simp at hq
        · rw [if_neg h2] at hq
          simp at hq
    · simpa using hacc
  · intro fuel
    induction fuel with
    | zero => intro px py dx dy tree idx t hx hy h; simp [find_collision_tree_ray_aux] at h
    | succ fuel ih =>
      intro px py dx dy tree idx t hx hy h
      unfold find_collision_tree_ray_aux at h
      cases hn : tree.get? idx with
      | none => rw [hn] at h; simp at h
      | some n =>
        rw [hn] at h
        simp only [Option.bind_eq_bind, Option.some_bind] at h
        cases hm : ray_node_tmin (F.fin px, F.fin py) (F.fin dx, F.fin dy) n.bounds with
        | none => rw [hm] at h; simp at h
        | some tmin =>
          rw [hm] at h
          obtain ⟨q, hq, rfl⟩ := ray_node_tmin_pos px py dx dy n.bounds tmin hm
          cases hc : n.content with
          | Leaf =>
            rw [hc] at h
            simp only [Option.some.injEq, Prod.mk.injEq] at h
            obtain ⟨rfl, rfl, rfl⟩ := h
            exact ⟨⟨q, hq, rfl⟩, ⟨px + q * dx, by simp [fadd, fmul]⟩,
              ⟨py + q * dy, by simp [fadd, fmul]⟩⟩
          | Internal left right =>
            rw [hc] at h
            cases hl : find_collision_tree_ray_aux fuel (F.fin px, F.fin py)
                (F.fin dx, F.fin dy) tree left with
            | none =>
              simp only [hl] at h
              cases hr : find_collision_tree_ray_aux fuel (F.fin px, F.fin py)
                  (F.fin dx, F.fin dy) tree right with
              | none => simp [hr] at h
              | some r2 =>
                simp only [hr, Option.some.injEq] at h
                obtain ⟨t2, x2, y2⟩ := r2
                cases h
                exact ih px py dx dy tree right _ _ _ hr
            | some r1 =>
              simp only [hl] at h
              cases hr : find_collision_tree_ray_aux fuel (F.fin px, F.fin py)
                  (F.fin dx, F.fin dy) tree right with
              | none =>
                simp only [hr, Option.some.injEq] at h
                obtain ⟨t1, x1, y1⟩ := r1
                cases h
                exact ih px py dx dy tree left _ _ _ hl
              | some r2 =>
                simp only [hr, Option.some.injEq] at h
                by_cases hcmp : flt r1.1 r2.1 = true
                · rw [if_pos hcmp] at h
                  obtain ⟨t1, x1, y1⟩ := r1
                  cases h
                  exact ih px py dx dy tree left _ _ _ hl
                · rw [if_neg hcmp] at h
                  obtain ⟨t2, x2, y2⟩ := r2
                  cases h
                  exact ih px py dx dy tree right _ _ _ hr

/-- Witness for C6: the zero-component slab of the C9 ray is rejected, and
the C9 hit is finite with positive distance. -/
theorem C6_ray_zero_component_filtered_witness :
    slab_accept (slab_t (F.fin (1/2)) (F.fin 0) (F.fin 0)) (F.fin (-5))
      (F.fin 1) (F.fin (-(1/2))) (F.fin (1/2)) = false ∧
    ((∃ q : ℚ, 0 < q ∧ F.fin (9/2) = F.fin q) ∧
     (∃ a : ℚ, F.fin (-(1/2)) = F.fin a) ∧ (∃ b : ℚ, F.fin 0 = F.fin b)) := by
  constructor
  · exact C6_ray_zero_component_filtered.1 (1/2) 0 (-5) 1 (-(1/2)) (1/2)
  · refine C6_ray_zero_component_filtered.2 1 (-5) 0 1 0 unitTree 0
      (F.fin (9/2)) (F.fin (-(1/2))) (F.fin 0) ?_
    norm_num [find_collision_tree_ray_aux, ray_node_tmin, slab_t,
      slab_accept, slab_upd, fdiv, fsub, fadd, fmul, flt, fle, fmin,
      unitTree, fin_ne_nan]

/- ----------------------------------------------------------------- -/
/- C8                                                                -/
/- ----------------------------------------------------------------- -/

theorem velOf_store (rf : RealFns) (pos : Position) (loc : Vec2)
    (eff : HitEffect) (ent : ℕ) (w : World) (i : ℕ) :
    velOf (store_collision rf pos loc eff ent w) i = velOf w i := by
  unfold store_collision velOf
  by_cases h : ent = i
  · subst h
    rw [getEnt_updEnt_self]
    · cases getEnt w ent <;> simp
    · intro e; rfl
  · rw [getEnt_updEnt_other]
    · intro e; rfl
    · exact h

theorem velOf_updEnt_other (w : World) (j i : ℕ) (f : EntRec → EntRec)
    (hf : ∀ e, (f e).id = e.id) (hij : j ≠ i) :
    velOf (updEnt w j f) i = velOf w i := by
  unfold velOf
  rw [getEnt_updEnt_other w j i f hf hij]

theorem velOf_simple_interact (rf : RealFns) (sat : SatFind)
    (e2id : ℕ) (pos2 : Position) (b2 : Blocky) (e1id : ℕ)
    (pos1 : Position) (c1 : DetectCollision) (w w2 : World) (i : ℕ)
    (hi : e2id ≠ i)
    (h : simple_interact rf sat e2id pos2 b2 e1id pos1 c1 w = some w2) :
    velOf w2 i = velOf w i := by
  simp only [simple_interact] at h
  by_cases h1 : c1.ignore = some e2id
  · rw [if_pos h1] at h; cases h; rfl
  · rw [if_neg h1] at h
    by_cases h2 : vec2_square_len (vec2_sub pos1.pos pos2.pos) >
        (c1.radius + b2.radius) * (c1.radius + b2.radius)
    · rw [if_pos h2] at h; cases h; rfl
    · rw [if_neg h2] at h
      cases hf : find_collision_tree_box sat b2.tree.length pos1
          c1.bounding_box pos2 b2.tree 0 with
      | none => simp only [hf] at h; cases h; rfl
      | some hit =>
        simp only [hf] at h
        cases hg1 : getEnt w e1id with
        | none => rw [hg1] at h; simp at h
        | some e1R =>
          rw [hg1] at h
          simp only [Option.bind_eq_bind, Option.some_bind] at h
          cases hg2 : getEnt w e2id with
          | none => rw [hg2] at h; simp at h
          | some e2R =>
            rw [hg2] at h
            simp only [Option.some_bind] at h
            cases hm : c1.mass with
            | none =>
              simp only [hm] at h
              cases h
              rw [velOf_store]
            | some mass1 =>
              simp only [hm] at h
              cases h
              rw [velOf_updEnt_other]
              · rw [velOf_store]
              · intro e; rfl
              · exact hi

theorem velOf_simple_loop (rf : RealFns) (sat : SatFind)
    (e2id : ℕ) (pos2 : Position) (b2 : Blocky)
    (simps : List (ℕ × Position × DetectCollision)) (w w2 : World) (i : ℕ)
    (hi : e2id ≠ i)
    (h : simple_loop rf sat e2id pos2 b2 simps w = some w2) :
    velOf w2 i = velOf w i := by
  induction simps generalizing w with
  | nil => cases h; rfl
  | cons c rest ih =>
    obtain ⟨c1id, cpos, cdet⟩ := c
    unfold simple_loop at h
    cases hs : simple_interact rf sat e2id pos2 b2 c1id cpos cdet w with
    | none => rw [hs] at h; simp at h
    | some wmid =>
      rw [hs] at h
      simp only [Option.bind_eq_bind, Option.some_bind] at h
      rw [ih wmid h, velOf_simple_interact rf sat e2id pos2 b2 c1id cpos
        cdet w wmid i hi hs]

theorem velOf_comp_loop (rf : RealFns) (sat : SatFind)
    (simps : List (ℕ × Position × DetectCollision))
    (comps : List (ℕ × Position × Blocky)) (w w2 : World) (i : ℕ)
    (hi : ∀ c ∈ comps, c.1 ≠ i)
    (h : comp_loop rf sat simps comps w = some w2) :
    velOf w2 i = velOf w i := by
  induction comps generalizing w with
  | nil => cases h; rfl
  | cons c rest ih =>
    obtain ⟨e2id, cpos, cblk⟩ := c
    unfold comp_loop at h
    split_ifs at h with hemp
    · exact ih w (fun d hd => hi d (List.mem_cons_of_mem _ hd)) h
    · cases hs : simple_loop rf sat e2id cpos cblk simps w with
      | none => rw [hs] at h; simp at h
      | some wmid =>
        rw [hs] at h
        simp only [Option.bind_eq_bind, Option.some_bind] at h
        rw [ih wmid (fun d hd => hi d (List.mem_cons_of_mem _ hd)) h,
          velOf_simple_loop rf sat e2id cpos cblk simps w wmid i
            (hi (e2id, cpos, cblk) (List.mem_cons_self _ _)) hs]

/-- C8: during the composite-vs-simple block, the velocity of a simple
(`DetectCollision`) collider that is not itself a composite body is never
modified — the pass only writes the composite side's velocity, and only
when the simple collider declares a mass (a massless interaction changes
no velocity at all, it only records the hit). -/
theorem C8_simple_velocity_unchanged (rf : RealFns) (sat : SatFind)
    (w w2 : World) (e : EntRec)
    (hnd : (w.map (fun r => r.id)).Nodup)
    (he : e ∈ w) (_hdet : e.det.isSome = true) (hnb : e.blocky = none)
    (h : cs_pass rf sat w = some w2) :
    velOf w2 e.id = velOf w e.id ∧
    (∀ (e2id : ℕ) (pos2 : Position) (b2 : Blocky) (e1id : ℕ)
        (pos1 : Position) (c1 : DetectCollision) (w3 w4 : World),
        c1.mass = none →
        simple_interact rf sat e2id pos2 b2 e1id pos1 c1 w3 = some w4 →
        ∀ i, velOf w4 i = velOf w3 i) := by
  constructor
  · unfold cs_pass at h
    refine velOf_comp_loop rf sat _ _ w w2 e.id ?_ h
    intro c hc
    rw [List.mem_filterMap] at hc
    obtain ⟨er, her, hmap⟩ := hc
    cases hbl : er.blocky with
    | none => rw [hbl] at hmap; simp at hmap
    | some b =>
      rw [hbl] at hmap
      simp only [Option.map_some', Option.some.injEq] at hmap
      intro hid
      have hfst : er.id = e.id := by rw [← hmap] at hid; exact hid
      have : er = e := List.inj_on_of_nodup_map hnd her he hfst
      rw [this] at hbl
      rw [hbl] at hnb
      exact Option.noConfusion hnb
  · intro e2id pos2 b2 e1id pos1 c1 w3 w4 hmass hint i
    by_cases h1 : c1.ignore = some e2id
    · simp only [simple_interact, if_pos h1] at hint
      cases hint; rfl
    simp only [simple_interact, if_neg h1] at hint
    by_cases h2 : vec2_square_len (vec2_sub pos1.pos pos2.pos) >
        (c1.radius + b2.radius) * (c1.radius + b2.radius)
    · rw [if_pos h2] at hint; cases hint; rfl
    rw [if_neg h2] at hint
    · cases hf : find_collision_tree_box sat b2.tree.length pos1
          c1.bounding_box pos2 b2.tree 0 with
      | none => simp only [hf] at hint; cases hint; rfl
      | some hit =>
        simp only [hf] at hint
        cases hg1 : getEnt w3 e1id with
        | none => rw [hg1] at hint; simp at hint
        | some e1R =>
          rw [hg1] at hint
          simp only [Option.bind_eq_bind, Option.some_bind] at hint
          cases hg2 : getEnt w3 e2id with
          | none => rw [hg2] at hint; simp at hint
          | some e2R =>
            rw [hg2] at hint
            simp only [Option.some_bind] at hint
            simp only [hmass] at hint
            cases hint
            rw [velOf_store]

/-- Witness for C8: on `wSimp`, the always-hit narrow phase changes the
composite's velocity but leaves the simple collider's velocity `(1, 0)`
untouched. -/
theorem C8_simple_velocity_unchanged_witness :
    velOf wSimpRes 0 = velOf wSimp 0 ∧ velOf wSimp 0 = some ⟨⟨1, 0⟩, 0⟩ := by
  have h : cs_pass rfEx satHitEx wSimp = some wSimpRes := by
    norm_num [cs_pass, comp_loop, simple_loop, simple_interact, wSimp,
      wSimpRes, blkOne, detOne, satHitEx, rfEx, unitTree, getEnt, updEnt,
      store_collision, relLoc, find_collision_tree_box, vec2_add, vec2_sub,
      vec2_scale, vec2_len, vec2_square_len, List.find?]
    exact fun h => Option.noConfusion h
  have hc := C8_simple_velocity_unchanged rfEx satHitEx wSimp wSimpRes
    ⟨0, ⟨⟨0, 0⟩, 0⟩, ⟨⟨1, 0⟩, 0⟩, none, some detOne, []⟩
    (by norm_num [wSimp]) (by norm_num [wSimp]) rfl rfl h
  refine ⟨hc.1, ?_⟩
  norm_num [velOf, getEnt, wSimp, List.find?]

/- ----------------------------------------------------------------- -/
/- C3                                                                -/
/- ----------------------------------------------------------------- -/

theorem mem_takeWhile_sorted (c : ℕ) :
    ∀ (l : List (EntRec × Blocky)),
      l.Pairwise (fun a b => a.1.id < b.1.id) →
      ∀ e, (e ∈ l.takeWhile (fun x => x.1.id < c) ↔ e ∈ l ∧ e.1.id < c) := by
  intro l
  induction l with
  | nil => intro _ e; simp
  | cons a t ih =>
    intro hs e
    rw [List.pairwise_cons] at hs
    obtain ⟨ha, ht⟩ := hs
    by_cases hpa : a.1.id < c
    · rw [List.takeWhile_cons, if_pos (by simpa using hpa)]
      simp only [List.mem_cons, ih ht e]
      constructor
      · rintro (rfl | ⟨h1, h2⟩)
        · exact ⟨Or.inl rfl, hpa⟩
        · exact ⟨Or.inr h1, h2⟩
      · rintro ⟨rfl | h1, h2⟩
        · exact Or.inl rfl
        · exact Or.inr ⟨h1, h2⟩
    · rw [List.takeWhile_cons, if_neg (by simpa using hpa)]
      simp only [List.not_mem_nil, false_iff, List.mem_cons, not_and]
      rintro (rfl | h1)
      · intro h2; exact hpa h2
      · intro h2; exact hpa (lt_trans (ha e h1) h2)

theorem innerExamined_nodup (a : EntRec × Blocky) (l : List (EntRec × Blocky))
    (hs : l.Pairwise (fun x y => x.1.id < y.1.id)) :
    (innerExamined a l).Nodup := by
  unfold innerExamined
  refine List.Pairwise.map _ ?_
    (List.Pairwise.sublist (List.takeWhile_sublist _) hs)
  intro x y hxy h
  rw [Prod.mk.injEq] at h
  exact absurd (h.2 ▸ hxy) (lt_irrefl _)

theorem mem_innerExamined_fst (a : EntRec × Blocky)
    (l : List (EntRec × Blocky)) (x : ℕ × ℕ) (hx : x ∈ innerExamined a l) :
    x.1 = a.1.id := by
  unfold innerExamined at hx
  rw [List.mem_map] at hx
  obtain ⟨b, -, rfl⟩ := hx
  rfl

theorem examinedPairs_nodup (w : World)
    (hs : (blockyJoin w).Pairwise (fun a b => a.1.id < b.1.id)) :
    (examinedPairs w).Nodup := by
  unfold examinedPairs
  rw [List.nodup_flatMap]
  constructor
  · intro a _
    exact innerExamined_nodup a _ hs
  · refine hs.imp ?_
    intro a b hab x hxa hxb
    have h1 := mem_innerExamined_fst a _ x hxa
    have h2 := mem_innerExamined_fst b _ x hxb
    rw [h1] at h2
    exact absurd (h2 ▸ hab) (lt_irrefl _)

theorem mem_examinedPairs (w : World)
    (hs : (blockyJoin w).Pairwise (fun a b => a.1.id < b.1.id)) (x y : ℕ) :
    (x, y) ∈ examinedPairs w ↔
      ∃ a ∈ blockyJoin w, ∃ b ∈ blockyJoin w,
        a.1.id = x ∧ b.1.id = y ∧ y < x := by
  unfold examinedPairs innerExamined
  rw [List.mem_flatMap]
  constructor
  · rintro ⟨a, ha, hx⟩
    rw [List.mem_map] at hx
    obtain ⟨b, hb, heq⟩ := hx
    rw [mem_takeWhile_sorted _ _ hs] at hb
    obtain ⟨hbJ, hblt⟩ := hb
    rw [Prod.mk.injEq] at heq
    exact ⟨a, ha, b, hbJ, heq.1, heq.2, heq.1 ▸ heq.2 ▸ hblt⟩
  · rintro ⟨a, ha, b, hbJ, rfl, rfl, hlt⟩
    exact ⟨a, ha,
      List.mem_map.mpr ⟨b, (mem_takeWhile_sorted _ _ hs b).mpr ⟨hbJ, hlt⟩, rfl⟩⟩

theorem pairCheck_eq_some (sat : SatFind) (a b : EntRec × Blocky)
    (c : Collision) :
    pairCheck sat a b = some c ↔
      a.2.blocks.isEmpty = false ∧ b.2.blocks.isEmpty = false ∧
      vec2_square_len (vec2_sub a.1.pos.pos b.1.pos.pos) ≤
        (a.2.radius + b.2.radius) * (a.2.radius + b.2.radius) ∧
      find_collision_tree sat (a.2.tree.length + b.2.tree.length)
        a.1.pos a.2.tree 0 b.1.pos b.2.tree 0 = some c := by
  simp only [pairCheck]
  by_cases h1 : (a.2.blocks.isEmpty || b.2.blocks.isEmpty) = true
  · rw [if_pos h1]
    rw [Bool.or_eq_true] at h1
    constructor
    · intro h; exact absurd h (by simp)
    · rintro ⟨ha, hb, -⟩
      rcases h1 with h1 | h1
      · rw [h1] at ha; exact Bool.noConfusion ha
      · rw [h1] at hb; exact Bool.noConfusion hb
  · rw [if_neg h1]
    rw [Bool.or_eq_true] at h1
    push_neg at h1
    obtain ⟨ha, hb⟩ := h1
    have ha2 : a.2.blocks.isEmpty = false := Bool.eq_false_iff.mpr ha
    have hb2 : b.2.blocks.isEmpty = false := Bool.eq_false_iff.mpr hb
    by_cases h2 : vec2_square_len (vec2_sub a.1.pos.pos b.1.pos.pos) >
        (a.2.radius + b.2.radius) * (a.2.radius + b.2.radius)
    · rw [if_pos h2]
      constructor
      · intro h; exact absurd h (by simp)
      · rintro ⟨-, -, hle, -⟩
        exact absurd h2 (not_lt.mpr hle)
    · rw [if_neg h2]
      simp [ha2, hb2, not_lt.mp h2]

theorem filterMap_map_sublist {α β γ : Type _} (g : α → Option β)
    (proj : β → γ) (pr : α → γ)
    (hg : ∀ x y, g x = some y → proj y = pr x) :
    ∀ l : List α, ((l.filterMap g).map proj).Sublist (l.map pr) := by
  intro l
  induction l with
  | nil => simp
  | cons x t ih =>
    cases hgx : g x with
    | none =>
      rw [List.filterMap_cons_none hgx, List.map_cons]
      exact ih.cons _
    | some y =>
      rw [List.filterMap_cons_some hgx, List.map_cons, List.map_cons,
        hg x y hgx]
      exact ih.cons₂ _

theorem mem_innerScan_fst (sat : SatFind) (a : EntRec × Blocky)
    (l : List (EntRec × Blocky)) (t : ℕ × ℕ × Collision)
    (ht : t ∈ innerScan sat a l) : t.1 = a.1.id := by
  unfold innerScan at ht
  rw [List.mem_filterMap] at ht
  obtain ⟨b, -, hb⟩ := ht
  cases hpc : pairCheck sat a b with
  | none => rw [hpc] at hb; exact Option.noConfusion hb
  | some c0 =>
    rw [hpc] at hb
    simp only [Option.map_some', Option.some.injEq] at hb
    rw [← hb]

theorem innerScan_proj_sublist (sat : SatFind) (a : EntRec × Blocky)
    (l : List (EntRec × Blocky)) :
    ((innerScan sat a l).map (fun t => (t.1, t.2.1))).Sublist
      (innerExamined a l) := by
  unfold innerScan innerExamined
  refine filterMap_map_sublist _ _ _ ?_ _
  intro x y hxy
  cases hpc : pairCheck sat a x with
  | none => rw [hpc] at hxy; exact Option.noConfusion hxy
  | some c0 =>
    rw [hpc] at hxy
    simp only [Option.map_some', Option.some.injEq] at hxy
    rw [← hxy]

/-- C3: composite-vs-composite detection examines every unordered pair of
distinct composite entities exactly once (handle ordering: the pair
`(a, b)` is examined iff `b.id < a.id`, and the examined-pair list has no
duplicates); a collected contact implies both shapes were non-empty, the
broad-phase test `dist² ≤ (r1+r2)²` passed, and the recursive tree
descent from both roots returned it; and at most one contact is collected
per pair (the projection of the hit list to id pairs has no duplicates).
The sortedness hypothesis is the `specs` storage-iteration order that the
source's `e2 >= e1` break relies on. -/
theorem C3_pair_enumeration (sat : SatFind) (w : World)
    (hs : (blockyJoin w).Pairwise (fun a b => a.1.id < b.1.id)) :
    ((examinedPairs w).Nodup ∧
     ∀ x y : ℕ, ((x, y) ∈ examinedPairs w ↔
       ∃ a ∈ blockyJoin w, ∃ b ∈ blockyJoin w,
         a.1.id = x ∧ b.1.id = y ∧ y < x)) ∧
    (∀ x y (c : Collision), (x, y, c) ∈ block_hits sat w →
       ∃ a ∈ blockyJoin w, ∃ b ∈ blockyJoin w,
         a.1.id = x ∧ b.1.id = y ∧ b.1.id < a.1.id ∧
         a.2.blocks.isEmpty = false ∧ b.2.blocks.isEmpty = false ∧
         vec2_square_len (vec2_sub a.1.pos.pos b.1.pos.pos) ≤
           (a.2.radius + b.2.radius) * (a.2.radius + b.2.radius) ∧
         find_collision_tree sat (a.2.tree.length + b.2.tree.length)
           a.1.pos a.2.tree 0 b.1.pos b.2.tree 0 = some c) ∧
    ((block_hits sat w).map (fun t => (t.1, t.2.1))).Nodup := by
  refine ⟨⟨examinedPairs_nodup w hs, mem_examinedPairs w hs⟩, ?_, ?_⟩
  · intro x y c hmem
    unfold block_hits at hmem
    rw [List.mem_flatMap] at hmem
    obtain ⟨a, ha, hin⟩ := hmem
    unfold innerScan at hin
    rw [List.mem_filterMap] at hin
    obtain ⟨b, hb, hpc⟩ := hin
    rw [mem_takeWhile_sorted _ _ hs] at hb
    obtain ⟨hbJ, hblt⟩ := hb
    cases hpc0 : pairCheck sat a b with
    | none => rw [hpc0] at hpc; exact Option.noConfusion hpc
    | some c0 =>
      rw [hpc0] at hpc
      simp only [Option.map_some', Option.some.injEq, Prod.mk.injEq] at hpc
      obtain ⟨rfl, rfl, rfl⟩ := hpc
      rw [pairCheck_eq_some] at hpc0
      obtain ⟨h1, h2, h3, h4⟩ := hpc0
      exact ⟨a, ha, b, hbJ, rfl, rfl, hblt, h1, h2, h3, h4⟩
  · unfold block_hits
    rw [List.map_flatMap, List.nodup_flatMap]
    constructor
    · intro a _
      exact List.Nodup.sublist (innerScan_proj_sublist sat a _)
        (innerExamined_nodup a _ hs)
    · refine hs.imp ?_
      intro a b hab x hxa hxb
      rw [List.mem_map] at hxa hxb
      obtain ⟨t1, ht1, rfl⟩ := hxa
      obtain ⟨t2, ht2, heq⟩ := hxb
      have h1 := mem_innerScan_fst sat a _ t1 ht1
      have h2 := mem_innerScan_fst sat b _ t2 ht2
      rw [Prod.mk.injEq] at heq
      have hsame : a.1.id = b.1.id := by rw [← h1, ← heq.1, h2]
      exact absurd (hsame ▸ hab) (lt_irrefl _)

/-- Witness for C3: on the two-composite world `wDet`, the examined-pair
list has no duplicates and the unordered pair `{0, 1}` is examined (as
`(1, 0)`, larger handle first). -/
theorem C3_pair_enumeration_witness :
    (examinedPairs wDet).Nodup ∧ (1, 0) ∈ examinedPairs wDet := by
  have hs : (blockyJoin wDet).Pairwise (fun a b => a.1.id < b.1.id) := by
    norm_num [blockyJoin, wDet, List.filterMap_cons, List.pairwise_cons]
  have hc := C3_pair_enumeration satEx wDet hs
  refine ⟨hc.1.1, (hc.1.2 1 0).mpr ?_⟩
  refine ⟨(⟨1, ⟨⟨1, 0⟩, 0⟩, ⟨⟨0, 0⟩, 0⟩, some blkOne, none, []⟩, blkOne), ?_,
         (⟨0, ⟨⟨0, 0⟩, 0⟩, ⟨⟨0, 0⟩, 0⟩, some blkOne, none, []⟩, blkOne), ?_,
         rfl, rfl, by norm_num⟩
  · norm_num [blockyJoin, wDet, List.filterMap_cons]
  · norm_num [blockyJoin, wDet, List.filterMap_cons]
